import Mathlib

/-!
# Verification of the GRVT volume bot quoting loop (`src/bot.py`)

Shallow embedding of the core of `GRVTVolumeBot`: orderbook parsing
(`get_orderbook`), trade-history reconciliation (`get_account_volume`),
price/size rounding (`round_price`, `round_size`), order placement price/size
computation (`place_orders`), the per-cycle stop-condition check, and the
run-loop's exit control flow.  Python floats are modelled as exact rationals;
Python's builtin `round` (banker's rounding, half-to-even) is modelled by
`pyRound`; Python's falsy-coalescing `a or b or 0` on optional numbers is
modelled by `pyOr2`.
-/

namespace GrvtBot

/-- Python's builtin `round` on a rational: round to the nearest integer,
ties to the even integer (banker's rounding). -/
def pyRound (q : ℚ) : ℤ :=
  let f : ℤ := ⌊q⌋
  let frac : ℚ := q - f
  if frac < 1/2 then f
  else if 1/2 < frac then f + 1
  else if f % 2 = 0 then f else f + 1

/-- Python's `a or b or 0` where `a`, `b` are `dict.get` results (possibly
absent) and `0`/`0.0`/`None` are falsy: the first present, nonzero value,
else `0`. -/
def pyOr2 (a b : Option ℚ) : ℚ :=
  match a with
  | some x => if x ≠ 0 then x else (match b with | some y => y | none => 0)
  | none => (match b with | some y => y | none => 0)

/-- `GRVTVolumeBot.round_price`: rounds a price to the hardcoded tick size
`0.1` (`round(price / tick_size) * tick_size`). -/
def round_price (price : ℚ) : ℚ :=
  pyRound (price / (1/10)) * (1/10)

/-- `GRVTVolumeBot.round_size`: rounds an order size to the hardcoded step
size `0.001` (`round(size / step_size) * step_size`). -/
def round_size (size : ℚ) : ℚ :=
  pyRound (size / (1/1000)) * (1/1000)

/-- The strategy configuration fields of `GRVTVolumeBot.__init__` that the
core loop reads (all loaded from environment variables at startup).  Note the
source has no `tick_size`/`min_size` field: those constants are hardcoded
inside `round_price`/`round_size`. -/
structure Config where
  leverage : ℚ
  investment_usdc : ℚ
  target_volume : ℚ
  max_loss : ℚ
  target_hours : ℚ
  spread_bps : ℚ
  orders_per_side : ℕ
  order_size_percent : ℚ
  refresh_interval : ℚ
  delay_between_orders : ℚ
  delay_after_cancel : ℚ
  status_interval : ℚ
  max_orders_to_place : ℕ
  use_post_only : Bool
  deriving DecidableEq, Repr

/-- The snapshot dict built by `get_orderbook` on success. -/
structure Orderbook where
  best_bid : ℚ
  best_ask : ℚ
  mid_price : ℚ
  spread : ℚ
  deriving DecidableEq, Repr

/-- One entry of a raw orderbook side: GRVT dict format
(`{'price': …, 'size': …}`), CCXT pair format (`[price, size]`), or an
unrecognized shape. -/
inductive RawLevel where
  | dict (price size : ℚ)
  | pair (price size : ℚ)
  | unknown
  deriving DecidableEq, Repr

/-- Outcome of `client.fetch_order_book`: an exception, a non-dict payload,
a dict missing `bids`/`asks`, or a payload with two raw sides. -/
inductive FetchResult where
  | failure
  | notDict
  | missingKeys
  | ok (bids asks : List RawLevel)
  deriving DecidableEq, Repr

/-- Extract best-bid/best-ask prices from the heads of the two sides, the way
`get_orderbook` branches on `isinstance(bids[0], dict)`: a format mismatch
between the sides raises (KeyError/TypeError) and is caught, yielding `none`. -/
def extractPrices : RawLevel → RawLevel → Option (ℚ × ℚ)
  | .dict bp _, .dict ap _ => some (bp, ap)
  | .pair bp _, .pair ap _ => some (bp, ap)
  | _, _ => none

/-- `GRVTVolumeBot.get_orderbook`: `None` on fetch failure, non-dict payload,
missing keys, an empty side, an unknown entry format, or a zero best price;
otherwise the snapshot with `mid_price = (bid+ask)/2` and
`spread = (ask-bid)/mid*100`. -/
def get_orderbook (r : FetchResult) : Option Orderbook :=
  match r with
  | .failure => none
  | .notDict => none
  | .missingKeys => none
  | .ok bids asks =>
    match bids, asks with
    | [], _ => none
    | _, [] => none
    | b :: _, a :: _ =>
      match extractPrices b a with
      | none => none
      | some (bb, aa) =>
        if bb = 0 ∨ aa = 0 then none
        else
          let mid := (bb + aa) / 2
          some ⟨bb, aa, mid, ((aa - bb) / mid) * 100⟩

/-- One entry of the `fetch_my_trades` result: field values as parsed from
the trade dict (`none` = key absent). -/
structure Trade where
  timestamp : Option ℚ
  time : Option ℚ
  cost : Option ℚ
  amount : Option ℚ
  deriving DecidableEq, Repr

/-- An element of the trades list: either not a dict (skipped by the loop)
or a trade record. -/
inductive TradeEntry where
  | nonDict
  | trade (t : Trade)
  deriving DecidableEq, Repr

/-- Outcome of `client.fetch_my_trades`: an exception, a non-list payload,
or a list of entries. -/
inductive TradesPayload where
  | fetchError
  | notList
  | list (entries : List TradeEntry)
  deriving DecidableEq, Repr

/-- The effective timestamp of a trade dict:
`trade.get('timestamp') or trade.get('time') or 0` (milliseconds). -/
def tradeTimestamp (t : Trade) : ℚ := pyOr2 t.timestamp t.time

/-- The effective cost of a trade dict:
`trade.get('cost') or trade.get('amount') or 0`. -/
def tradeCost (t : Trade) : ℚ := pyOr2 t.cost t.amount

/-- The body of the accumulation loop in `get_account_volume`, folded over
the entries: skip non-dicts, skip entries with falsy timestamp, and for
entries with `fromtimestamp(timestamp/1000) >= start_time` add the effective
cost to the volume and bump the trade count. -/
def tradeFold (start_time : ℚ) (acc : ℚ × ℕ) (e : TradeEntry) : ℚ × ℕ :=
  match e with
  | .nonDict => acc
  | .trade t =>
    let ts := tradeTimestamp t
    if ts = 0 then acc
    else if start_time ≤ ts / 1000 then (acc.1 + tradeCost t, acc.2 + 1)
    else acc

/-- `GRVTVolumeBot.get_account_volume`: on an exception or a non-list payload
it returns the prior `(total_volume, total_trades)` unchanged; on a list it
recomputes both from scratch over the session's trades. -/
def get_account_volume (start_time : ℚ) (total_volume : ℚ) (total_trades : ℕ)
    (p : TradesPayload) : ℚ × ℕ :=
  match p with
  | .fetchError => (total_volume, total_trades)
  | .notList => (total_volume, total_trades)
  | .list es => es.foldl (tradeFold start_time) (0, 0)

/-- The session-tracking fields of the bot object mutated by the run loop. -/
structure BotState where
  start_time : ℚ
  total_volume : ℚ
  total_trades : ℕ
  total_loss : ℚ
  cycle_count : ℕ
  deriving DecidableEq, Repr

/-- One reconciliation step of the run loop
(`self.total_volume, self.total_trades = await self.get_account_volume()`). -/
def reconcile (st : BotState) (p : TradesPayload) : BotState :=
  let r := get_account_volume st.start_time st.total_volume st.total_trades p
  { st with total_volume := r.1, total_trades := r.2 }

/-- Order side. -/
inductive Side where
  | buy
  | sell
  deriving DecidableEq, Repr

/-- The arguments `place_orders` passes to `client.create_order` for one
attempted limit order. -/
structure Order where
  side : Side
  price : ℚ
  size : ℚ
  deriving DecidableEq, Repr

/-- `spread_amount = mid_price * (self.spread_bps / 10000)`. -/
def spreadAmount (ob : Orderbook) (cfg : Config) : ℚ :=
  ob.mid_price * (cfg.spread_bps / 10000)

/-- The per-cycle order size of `place_orders`:
`round_size(investment_usdc * leverage * order_size_percent / mid_price)`,
computed once before either placement loop.  There is no clamp: the rounding
may yield `0`. -/
def orderSizeOf (ob : Orderbook) (cfg : Config) : ℚ :=
  round_size (cfg.investment_usdc * cfg.leverage * cfg.order_size_percent / ob.mid_price)

/-- The `i`-th buy price of `place_orders`:
`round_price(mid_price - spread_amount - i * 0.01 * mid_price)`. -/
def buyPriceAt (ob : Orderbook) (cfg : Config) (i : ℕ) : ℚ :=
  round_price (ob.mid_price - spreadAmount ob cfg - (i : ℚ) * (1/100) * ob.mid_price)

/-- The `i`-th sell price of `place_orders`:
`round_price(mid_price + spread_amount + i * 0.01 * mid_price)`. -/
def sellPriceAt (ob : Orderbook) (cfg : Config) (i : ℕ) : ℚ :=
  round_price (ob.mid_price + spreadAmount ob cfg + (i : ℚ) * (1/100) * ob.mid_price)

/-- Number of placement iterations per side:
`range(min(self.orders_per_side, self.max_orders_to_place))`. -/
def ordersPerLoop (cfg : Config) : ℕ :=
  min cfg.orders_per_side cfg.max_orders_to_place

/-- The sequence of orders whose parameters `place_orders` computes and
submits in one cycle: the buy loop then the sell loop, every order carrying
the cycle's single `order_size`. -/
def attemptedOrders (ob : Orderbook) (cfg : Config) : List Order :=
  (List.range (ordersPerLoop cfg)).map
      (fun i => ⟨Side.buy, buyPriceAt ob cfg i, orderSizeOf ob cfg⟩)
    ++ (List.range (ordersPerLoop cfg)).map
      (fun i => ⟨Side.sell, sellPriceAt ob cfg i, orderSizeOf ob cfg⟩)

/-- The stop conditions of the run loop (plus the `KeyboardInterrupt` path). -/
inductive StopCondition where
  | maxLossReached
  | volumeTargetReached
  | timeLimitReached
  | userCancelled
  deriving DecidableEq, Repr

/-- The stop checks at the bottom of the run loop, in source order:
`total_loss >= max_loss`, then `total_volume >= target_volume`, then
`elapsed >= timedelta(hours=target_hours)` (elapsed in seconds). -/
def checkStop (cfg : Config) (total_loss total_volume elapsedSeconds : ℚ) :
    Option StopCondition :=
  if cfg.max_loss ≤ total_loss then some .maxLossReached
  else if cfg.target_volume ≤ total_volume then some .volumeTargetReached
  else if cfg.target_hours * 3600 ≤ elapsedSeconds then some .timeLimitReached
  else none

/-- Result of one iteration of the `while True` body: loop again after a
sleep, or break with a stop condition. -/
inductive StepResult where
  | continueLoop (st : BotState) (sleepSeconds : ℚ)
  | stop (st : BotState) (c : StopCondition)
  deriving DecidableEq, Repr

/-- The end-of-cycle sleep of the run loop: the source sleeps the constant
`self.refresh_interval` (line `await asyncio.sleep(self.refresh_interval)`);
it never measures the cycle's wall time. -/
def cycleEndSleep (cfg : Config) : ℚ := cfg.refresh_interval

/-- Modelled from the spec: the end-of-cycle sleep the spec describes,
`max(0, refresh_interval − elapsed)` where `elapsed` is the cycle's wall
time.  No such computation exists in the source; this definition exists only
to be compared with `cycleEndSleep`. -/
def cycleEndSleepSpec (cfg : Config) (cycleElapsed : ℚ) : ℚ :=
  max 0 (cfg.refresh_interval - cycleElapsed)

/-- The session state after the reconciliation and loss-estimate lines of
the loop body (`self.total_volume, self.total_trades = await
self.get_account_volume()`; `self.total_loss = self.total_volume *
(self.spread_bps / 10000)`). -/
def postReconcile (cfg : Config) (st : BotState) (tp : TradesPayload) :
    BotState :=
  { st with
    total_volume := (get_account_volume st.start_time st.total_volume
      st.total_trades tp).1
    total_trades := (get_account_volume st.start_time st.total_volume
      st.total_trades tp).2
    total_loss := (get_account_volume st.start_time st.total_volume
      st.total_trades tp).1 * (cfg.spread_bps / 10000) }

/-- One iteration of the `while True` body of `GRVTVolumeBot.run`:
increment `cycle_count`; fetch/parse the orderbook, and on `None` sleep the
hardcoded `5` seconds and retry without touching the totals; otherwise
cancel-and-place (no effect on the session totals), reconcile the totals
from the trades payload, recompute `total_loss = total_volume *
(spread_bps/10000)`, run the stop checks, and on no stop sleep
`refresh_interval`. -/
def cycleStep (cfg : Config) (st : BotState) (fetch : FetchResult)
    (tp : TradesPayload) (elapsedSeconds : ℚ) : StepResult :=
  match get_orderbook fetch with
  | none => .continueLoop { st with cycle_count := st.cycle_count + 1 } 5
  | some _ =>
    match checkStop cfg
        (postReconcile cfg { st with cycle_count := st.cycle_count + 1 } tp).total_loss
        (postReconcile cfg { st with cycle_count := st.cycle_count + 1 } tp).total_volume
        elapsedSeconds with
    | some c => .stop (postReconcile cfg { st with cycle_count := st.cycle_count + 1 } tp) c
    | none => .continueLoop (postReconcile cfg { st with cycle_count := st.cycle_count + 1 } tp)
        (cycleEndSleep cfg)

/-- Why the run loop was left: a stop-condition `break`, or a
`KeyboardInterrupt` caught by the `except` clause. -/
inductive ExitReason where
  | stopCondition (c : StopCondition)
  | userInterrupt
  deriving DecidableEq, Repr

/-- The exchange-facing actions of the shutdown path. -/
inductive ExitAction where
  | cancelAll
  | closeConnection
  deriving DecidableEq, Repr

/-- The shutdown control flow of `GRVTVolumeBot.run`: a stop-condition
`break` falls straight through to the `finally: await self.client.close()`;
only the `except KeyboardInterrupt` handler calls `cancel_all_orders` before
the `finally` block runs. -/
def shutdownTrace : ExitReason → List ExitAction
  | .stopCondition _ => [.closeConnection]
  | .userInterrupt => [.cancelAll, .closeConnection]

/-- A price or size `p` is an exact multiple of an increment `inc`
(the alignment notion of the spec). -/
def isTickMultiple (p inc : ℚ) : Prop := ∃ n : ℤ, p = (n : ℚ) * inc

/-- Modelled from the spec: the per-market metadata `(tick_size, min_size)`
that the spec says `fetchMarkets` yields and that becomes part of
`StrategyConfig` at startup.  The source has no such config fields:
`round_price`/`round_size` hardcode `0.1`/`0.001`.  This structure exists
only to state the spec's alignment claim for comparison. -/
structure MarketMeta where
  tick_size : ℚ
  min_size : ℚ
  deriving DecidableEq, Repr

/-- Modelled from the spec: the order-size rule with the zero-clamp the spec
describes — round to the nearest multiple of the min size and, if that is
zero while the unrounded size is positive, clamp to exactly one `0.001`
unit.  The source's `place_orders` has no such clamp.  This definition
exists only to be compared with `orderSizeOf`. -/
def computeOrderSizeSpec (ob : Orderbook) (cfg : Config) : ℚ :=
  let raw := cfg.investment_usdc * cfg.leverage * cfg.order_size_percent / ob.mid_price
  let r := round_size raw
  if r = 0 ∧ 0 < raw then 1/1000 else r

/-- Modelled from the spec: keep a trade entry iff it is a record whose
`timestamp` field is present and at least `session_start` (the spec's filter,
which mentions neither the `time` fallback nor falsy-timestamp skipping). -/
def specKeep (start : ℚ) : TradeEntry → Bool
  | .nonDict => false
  | .trade t =>
    match t.timestamp with
    | some ts => decide (start ≤ ts / 1000)
    | none => false

/-- Modelled from the spec: the contribution of a kept entry — the `cost`
field, falling back to `amount` only when `cost` is absent. -/
def specCost : TradeEntry → ℚ
  | .nonDict => 0
  | .trade t =>
    match t.cost with
    | some c => c
    | none => t.amount.getD 0

/-- Modelled from the spec: reconciliation as the spec words it — sum
`specCost` over the `specKeep`-filtered entries for the volume, count them
for the trades.  Exists only to be compared with `get_account_volume`. -/
def reconcileSpecStrict (start : ℚ) (es : List TradeEntry) : ℚ × ℕ :=
  (((es.filter (specKeep start)).map specCost).sum,
   (es.filter (specKeep start)).length)

/-- The entry filter the source actually applies: a dict entry whose
effective timestamp (`timestamp or time or 0`) is nonzero and whose
`fromtimestamp(ts/1000)` is at least the session start. -/
def codeKeep (start : ℚ) : TradeEntry → Bool
  | .nonDict => false
  | .trade t =>
    if tradeTimestamp t = 0 then false
    else decide (start ≤ tradeTimestamp t / 1000)

/-- The per-entry contribution the source actually sums:
`cost or amount or 0`. -/
def codeCost : TradeEntry → ℚ
  | .nonDict => 0
  | .trade t => tradeCost t

/-! ### Concrete instances used by counterexamples and witnesses -/

/-- A strategy configuration with the source's default parameter values
(`SPREAD_BPS=2`, `ORDERS_PER_SIDE=10` reduced to 3 here, `LEVERAGE=10`,
`INVESTMENT_USDC=10`, `ORDER_SIZE_PERCENT=0.1`, `REFRESH_INTERVAL=2.0`,
`MAX_ORDERS_TO_PLACE=10`). -/
def cfgCex : Config :=
  { leverage := 10, investment_usdc := 10, target_volume := 100000
    max_loss := 10, target_hours := 24, spread_bps := 2
    orders_per_side := 3, order_size_percent := 1/10, refresh_interval := 2
    delay_between_orders := 1/20, delay_after_cancel := 3/10
    status_interval := 30, max_orders_to_place := 10, use_post_only := true }

/-- The snapshot `get_orderbook` produces from best bid `100`, best ask
`102`: mid `101`, spread `(2/101)*100`. -/
def obCex : Orderbook := ⟨100, 102, 101, 200/101⟩

/-- A metadata record with tick size `0.3`, as `fetchMarkets` could report
for a market other than `BTC_USDT_Perp`. -/
def metaCex : MarketMeta := ⟨3/10, 1/100⟩

/-- A snapshot with mid price `100000` (best bid `99999`, best ask
`100001`), large enough that the default order value of `$10` rounds to a
zero size. -/
def obZ : Orderbook := ⟨99999, 100001, 100000, 1/500⟩

/-- A one-order-per-side configuration that makes the order value `$10`
(`10 × 10 × 0.1`). -/
def cfgZ : Config :=
  { cfgCex with orders_per_side := 1 }

/-- A configuration with `max_loss = 5`, `target_volume = 10`,
`target_hours = 1` for exercising the stop checks. -/
def cfg4 : Config :=
  { cfgCex with max_loss := 5, target_volume := 10, target_hours := 1 }

/-- A configuration with `refresh_interval = 2`, loose stop targets. -/
def cfg7 : Config :=
  { cfgCex with max_loss := 100, target_volume := 1000, target_hours := 1 }

/-- A fresh session state at time `0`. -/
def st7 : BotState := ⟨0, 0, 0, 0, 0⟩

/-- A well-formed orderbook payload (GRVT dict format, best bid `100`,
best ask `102`). -/
def fetch7 : FetchResult := .ok [.dict 100 1] [.dict 102 1]

/-- A trade record with `timestamp` present, `cost` present but zero, and
`amount = 5`. -/
def tZ : Trade := ⟨some 2000000, none, some 0, some 5⟩

/-! ### Supporting lemmas -/

/-- An empty bid side makes `get_orderbook` reject the payload. -/
theorem get_orderbook_empty_bids (asks : List RawLevel) :
    get_orderbook (.ok [] asks) = none := by
  simp [get_orderbook]

/-- A zero best bid makes `get_orderbook` reject the payload. -/
theorem get_orderbook_zero_bid (s : ℚ) (bids asks : List RawLevel) (p q : ℚ) :
    get_orderbook (.ok (RawLevel.dict 0 s :: bids) (RawLevel.dict p q :: asks)) = none := by
  simp [get_orderbook, extractPrices]

/-! ### C1 — shutdown control flow -/

/-- C1 counterexample: when the loop exits through the stop-condition
`break` (here `MaxLossReached`), the shutdown path releases the connection
without attempting a cancel-all — the claim that every exit path attempts a
cancellation is false on this exit path. -/
theorem shutdownTrace_stopCondition_lacks_cancelAll :
    ExitAction.cancelAll ∉ shutdownTrace (.stopCondition .maxLossReached) ∧
      ExitAction.closeConnection ∈ shutdownTrace (.stopCondition .maxLossReached) := by
  decide

/-- C1 amended: the shutdown path always ends by releasing the exchange
connection, but a final cancel-all is attempted only on a user interrupt
(`KeyboardInterrupt`); a stop-condition exit releases the connection with no
cancel-all, leaving that cycle's freshly placed orders resting. -/
theorem shutdownTrace_cancelAll_iff_interrupt (r : ExitReason) :
    (shutdownTrace r).getLast? = some .closeConnection ∧
      (ExitAction.cancelAll ∈ shutdownTrace r ↔ r = .userInterrupt) := by
  cases r <;> simp [shutdownTrace]

/-! ### C4 — stop-condition priority -/

/-- C4: the stop checks run once per cycle in the fixed source order — loss,
volume, time — each with a non-strict comparison, and the first true check
wins: a state with `total_loss ≥ max_loss` yields `MaxLossReached` whatever
the volume; with loss below the limit, `total_volume ≥ target_volume` (in
particular an exact hit) yields `VolumeTargetReached` on that same check;
with both below, `elapsed ≥ target_hours` yields `TimeLimitReached`; and
with all three below, no stop fires. -/
theorem checkStop_priority (cfg : Config) (loss vol el : ℚ) :
    (cfg.max_loss ≤ loss → checkStop cfg loss vol el = some .maxLossReached) ∧
    (loss < cfg.max_loss → cfg.target_volume ≤ vol →
      checkStop cfg loss vol el = some .volumeTargetReached) ∧
    (loss < cfg.max_loss → vol < cfg.target_volume →
      cfg.target_hours * 3600 ≤ el →
      checkStop cfg loss vol el = some .timeLimitReached) ∧
    (loss < cfg.max_loss → vol < cfg.target_volume →
      el < cfg.target_hours * 3600 →
      checkStop cfg loss vol el = none) := by
  refine ⟨fun h1 => ?_, fun h1 h2 => ?_, fun h1 h2 h3 => ?_, fun h1 h2 h3 => ?_⟩ <;>
    simp [checkStop, not_le.mpr, *]

/-- C4 witness: with `max_loss = 5` and `target_volume = 10`, a state where
loss `7` and volume `12` both exceed their limits stops with
`MaxLossReached`, and a state with loss `0` and volume exactly `10` stops
with `VolumeTargetReached`. -/
theorem checkStop_priority_witness :
    checkStop cfg4 7 12 0 = some .maxLossReached ∧
      checkStop cfg4 0 10 0 = some .volumeTargetReached :=
  ⟨(checkStop_priority cfg4 7 12 0).1 (by norm_num [cfg4, cfgCex]),
   (checkStop_priority cfg4 0 10 0).2.1 (by norm_num [cfg4, cfgCex])
     (by norm_num [cfg4, cfgCex])⟩

/-! ### C6 — reconciliation idempotence -/

/-- C6: reconciliation replaces the totals rather than accumulating them:
for every session state and every trades payload, reconciling twice with the
same payload gives exactly the state of reconciling once, whatever totals
were held before. -/
theorem reconcile_idempotent (st : BotState) (p : TradesPayload) :
    reconcile (reconcile st p) p = reconcile st p := by
  cases st
  cases p <;> rfl

/-! ### C5 — reconciliation filter and sum -/

/-- Accumulator form of the reconciliation loop: folding `tradeFold` from
any starting pair adds the filtered cost sum and the filtered count. -/
theorem tradeFold_foldl (start : ℚ) (es : List TradeEntry) (a : ℚ) (b : ℕ) :
    es.foldl (tradeFold start) (a, b) =
      (a + ((es.filter (codeKeep start)).map codeCost).sum,
       b + (es.filter (codeKeep start)).length) := by
  induction es generalizing a b with
  | nil => simp
  | cons e tl ih =>
    cases e with
    | nonDict =>
      simp [tradeFold, codeKeep, ih]
    | trade t =>
      by_cases h0 : tradeTimestamp t = 0
      · simp [tradeFold, codeKeep, h0, ih]
      · by_cases hts : start ≤ tradeTimestamp t / 1000
        · simp only [List.foldl_cons, tradeFold, codeKeep, codeCost, h0, hts, ih,
            if_neg, if_pos, decide_eq_true_eq, List.filter_cons, ite_true, ite_false,
            Bool.false_eq_true, List.map_cons, List.sum_cons, List.length_cons]
          refine Prod.ext ?_ ?_
          · push_cast
            ring
          · simp only []
            omega
        · simp [tradeFold, codeKeep, h0, hts, ih]

/-- C5 counterexample: for the payload holding the single trade `tZ` —
`timestamp` present and in-session, `cost` present but equal to `0`,
`amount = 5` — the source adds `5` to the volume (the falsy `cost` falls
back to `amount`), while the claim's rule (fall back only when `cost` is
absent) sums `0`; both count one trade. -/
theorem reconcile_cost_zero_falls_back :
    get_account_volume 1000 0 0 (.list [.trade tZ]) = (5, 1) ∧
      reconcileSpecStrict 1000 [.trade tZ] = (0, 1) := by
  constructor
  · norm_num [get_account_volume, tradeFold, tradeTimestamp, tradeCost, pyOr2, tZ]
  · norm_num [reconcileSpecStrict, specKeep, specCost, tZ]

/-- C5 amended: reconciliation sets `total_volume` to the sum — and
`total_trades` to the count — over exactly the dict entries whose effective
timestamp (`timestamp`, falling back to `time`, with absent-or-zero treated
as missing) is nonzero and at least `session_start`, of each entry's
effective cost, where `cost` falls back to `amount` whenever `cost` is
absent **or zero** (Python falsiness), independent of the totals held
before the call. -/
theorem get_account_volume_filter_sum (start v : ℚ) (n : ℕ)
    (es : List TradeEntry) :
    get_account_volume start v n (.list es) =
      (((es.filter (codeKeep start)).map codeCost).sum,
       (es.filter (codeKeep start)).length) := by
  simpa using tradeFold_foldl start es 0 0

/-! ### C2 — quote level prices -/

/-- C2 counterexample: on the reachable snapshot with best bid `100`, best
ask `102` (mid `101`) and the default config, the first buy price the source
computes is `101` — anchored at the mid price — whereas for every fan-out
fraction `k < 1` the claim's formula gives `round_to_tick(best_bid −
half_spread × 0 × k) = 100`.  No choice of `k` makes the claim's formula
match the code. -/
theorem buyPrice_not_anchored_at_best_bid :
    get_orderbook (.ok [.dict 100 1] [.dict 102 1]) = some obCex ∧
      ¬ ∃ k : ℚ, k < 1 ∧
        buyPriceAt obCex cfgCex 0 =
          round_price (obCex.best_bid -
            obCex.mid_price * (cfgCex.spread_bps / 10000) * 0 * k) := by
  constructor
  · norm_num [get_orderbook, extractPrices, obCex]
  · rintro ⟨k, -, h⟩
    norm_num [buyPriceAt, spreadAmount, round_price, pyRound, obCex, cfgCex] at h

/-- C2 amended: buy level `i` is priced
`round_to_tick(mid_price − half_spread − i × 0.01 × mid_price)` and sell
level `i` is priced
`round_to_tick(mid_price + half_spread + i × 0.01 × mid_price)`, with
`half_spread = mid_price × spread_bps/10000`: the levels are anchored at the
mid price, not at best bid/ask, and successive levels step by the fixed
fraction `0.01` of the mid price, not by a fraction `k < 1` of the
half-spread. -/
theorem attemptedOrders_level_prices (ob : Orderbook) (cfg : Config) (i : ℕ)
    (h : i < ordersPerLoop cfg) :
    (attemptedOrders ob cfg)[i]? =
      some ⟨.buy,
        round_price (ob.mid_price - ob.mid_price * (cfg.spread_bps / 10000) -
          (i : ℚ) * (1/100) * ob.mid_price),
        orderSizeOf ob cfg⟩ ∧
    (attemptedOrders ob cfg)[ordersPerLoop cfg + i]? =
      some ⟨.sell,
        round_price (ob.mid_price + ob.mid_price * (cfg.spread_bps / 10000) +
          (i : ℚ) * (1/100) * ob.mid_price),
        orderSizeOf ob cfg⟩ := by
  constructor
  · rw [attemptedOrders, List.getElem?_append, if_pos (by simpa using h)]
    simp [List.getElem?_map, List.getElem?_range, h, buyPriceAt, spreadAmount]
  · rw [attemptedOrders, List.getElem?_append, if_neg (by simp)]
    simp [List.getElem?_map, List.getElem?_range, h, sellPriceAt, spreadAmount,
      Nat.add_sub_cancel_left]

/-- C2 amended witness: on the concrete snapshot `obCex` with the default
config, level `0` of each side has the mid-anchored price. -/
theorem attemptedOrders_level_prices_witness :
    (attemptedOrders obCex cfgCex)[0]? =
      some ⟨.buy,
        round_price (obCex.mid_price - obCex.mid_price * (cfgCex.spread_bps / 10000) -
          ((0 : ℕ) : ℚ) * (1/100) * obCex.mid_price),
        orderSizeOf obCex cfgCex⟩ ∧
    (attemptedOrders obCex cfgCex)[ordersPerLoop cfgCex + 0]? =
      some ⟨.sell,
        round_price (obCex.mid_price + obCex.mid_price * (cfgCex.spread_bps / 10000) +
          ((0 : ℕ) : ℚ) * (1/100) * obCex.mid_price),
        orderSizeOf obCex cfgCex⟩ :=
  attemptedOrders_level_prices obCex cfgCex 0
    (by norm_num [ordersPerLoop, cfgCex])

/-! ### C3 — order size and the missing zero-clamp -/

/-- C3 counterexample: with the default config (order value `$10`) on a
snapshot with mid price `100000`, the unrounded size `0.0001` is positive
but rounds to `0`; the source places buy orders carrying size `0`, while the
claim's clamp rule would emit one `0.001` unit. -/
theorem orderSize_zero_not_clamped :
    orderSizeOf obZ cfgZ = 0 ∧
      0 < cfgZ.investment_usdc * cfgZ.leverage * cfgZ.order_size_percent /
        obZ.mid_price ∧
      computeOrderSizeSpec obZ cfgZ = 1/1000 ∧
      (attemptedOrders obZ cfgZ)[0]? =
        some ⟨.buy, buyPriceAt obZ cfgZ 0, 0⟩ := by
  refine ⟨?_, ?_, ?_, ?_⟩
  · norm_num [orderSizeOf, round_size, pyRound, obZ, cfgZ, cfgCex]
  · norm_num [obZ, cfgZ, cfgCex]
  · norm_num [computeOrderSizeSpec, orderSizeOf, round_size, pyRound, obZ, cfgZ, cfgCex]
  · rw [attemptedOrders, List.getElem?_append,
      if_pos (by simp [ordersPerLoop, cfgZ, cfgCex])]
    rw [List.getElem?_map]
    norm_num [ordersPerLoop, List.getElem?_range, cfgZ, cfgCex]
    norm_num [orderSizeOf, round_size, pyRound, obZ, cfgZ, cfgCex]

/-- C3 amended: every order the cycle submits carries the size
`round_size((investment × leverage × order_size_percent) / mid_price)` —
the nearest multiple of the `0.001` step, ties to even — with **no** clamp:
when the rounding yields zero while the unrounded size is positive, the
order is submitted with size exactly `0`. -/
theorem attemptedOrders_size_formula (ob : Orderbook) (cfg : Config)
    (o : Order) (ho : o ∈ attemptedOrders ob cfg) :
    o.size = round_size (cfg.investment_usdc * cfg.leverage *
      cfg.order_size_percent / ob.mid_price) := by
  rw [attemptedOrders] at ho
  rcases List.mem_append.mp ho with hb | hs
  · rcases List.mem_map.mp hb with ⟨i, -, rfl⟩
    rfl
  · rcases List.mem_map.mp hs with ⟨i, -, rfl⟩
    rfl

/-- C3 amended witness: the first buy order on the zero-size snapshot
carries exactly the rounded (zero) size. -/
theorem attemptedOrders_size_formula_witness :
    (⟨Side.buy, buyPriceAt obZ cfgZ 0, orderSizeOf obZ cfgZ⟩ : Order).size =
      round_size (cfgZ.investment_usdc * cfgZ.leverage *
        cfgZ.order_size_percent / obZ.mid_price) :=
  attemptedOrders_size_formula obZ cfgZ _
    (by
      rw [attemptedOrders]
      refine List.mem_append.mpr (Or.inl ?_)
      exact List.mem_map.mpr ⟨0, by norm_num [ordersPerLoop, cfgZ, cfgCex], rfl⟩)

/-! ### C7 — end-of-cycle sleep -/

/-- C7 counterexample: a completed cycle (good orderbook, empty trade list,
no stop) with `refresh_interval = 2` ends with a sleep of exactly `2`
seconds, while the claim's `max(0, refresh_interval − elapsed)` gives `1`
for a cycle that took `1` second of wall time: the source never measures the
cycle's wall time. -/
theorem cycle_sleep_ignores_elapsed :
    cycleStep cfg7 st7 fetch7 (.list []) 10 =
      .continueLoop ⟨0, 0, 0, 0, 1⟩ (cycleEndSleep cfg7) ∧
      cycleEndSleep cfg7 = 2 ∧ cycleEndSleepSpec cfg7 1 = 1 ∧ (2 : ℚ) ≠ 1 := by
  refine ⟨?_, ?_, ?_, by norm_num⟩
  · norm_num [cycleStep, get_orderbook, extractPrices, get_account_volume,
      postReconcile, checkStop, cycleEndSleep, cfg7, cfgCex, st7, fetch7]
  · norm_num [cycleEndSleep, cfg7, cfgCex]
  · norm_num [cycleEndSleepSpec, cfg7, cfgCex]

/-- C7 amended: at the end of every completed cycle the loop sleeps exactly
`refresh_interval`, regardless of how long steps 1–6 took; with
`refresh_interval ≥ 0` and a nonnegative cycle wall time this sleep is never
negative and is at least the claim's `max(0, refresh_interval − elapsed)`,
so the cadence is never faster than `refresh_interval` — but the sleep does
not equal the claim's expression. -/
theorem cycle_sleep_constant (cfg : Config) (st : BotState)
    (fetch : FetchResult) (tp : TradesPayload) (el cycleElapsed : ℚ)
    (s : BotState) (q : ℚ)
    (hstep : cycleStep cfg st fetch tp el = .continueLoop s q)
    (hfetch : get_orderbook fetch ≠ none)
    (helapsed : 0 ≤ cycleElapsed) (hrefresh : 0 ≤ cfg.refresh_interval) :
    q = cfg.refresh_interval ∧ cycleEndSleepSpec cfg cycleElapsed ≤ q ∧
      0 ≤ q := by
  cases hob : get_orderbook fetch with
  | none => exact absurd hob hfetch
  | some ob =>
    rw [cycleStep, hob] at hstep
    cases hcs : checkStop cfg
        (postReconcile cfg { st with cycle_count := st.cycle_count + 1 } tp).total_loss
        (postReconcile cfg { st with cycle_count := st.cycle_count + 1 } tp).total_volume
        el with
    | some c =>
      rw [hcs] at hstep
      simp at hstep
    | none =>
      rw [hcs] at hstep
      simp [cycleEndSleep] at hstep
      have hq : q = cfg.refresh_interval := hstep.2.symm
      subst hq
      refine ⟨rfl, ?_, hrefresh⟩
      have h1 : cfg.refresh_interval - cycleElapsed ≤ cfg.refresh_interval := by
        linarith
      exact max_le hrefresh h1

/-- C7 amended witness: on the concrete completed cycle, the sleep is the
configured `2`-second refresh interval, which dominates the claim's value
for a `1`-second cycle. -/
theorem cycle_sleep_constant_witness :
    (2 : ℚ) = cfg7.refresh_interval ∧ cycleEndSleepSpec cfg7 1 ≤ 2 ∧
      (0 : ℚ) ≤ 2 :=
  cycle_sleep_constant cfg7 st7 fetch7 (.list []) 10 1 ⟨0, 0, 0, 0, 1⟩ 2
    (by norm_num [cycleStep, get_orderbook, extractPrices, get_account_volume,
      postReconcile, checkStop, cycleEndSleep, cfg7, cfgCex, st7, fetch7])
    (by simp [get_orderbook, extractPrices, fetch7])
    (by norm_num) (by norm_num [cfg7, cfgCex])

/-! ### C8 — skipped cycle on a bad orderbook -/

/-- C8 counterexample: on a failed orderbook fetch with
`refresh_interval = 2`, the loop sleeps the hardcoded `5` seconds before
retrying, not `refresh_interval`. -/
theorem skip_sleep_is_five_not_refresh :
    cycleStep cfg7 st7 .failure (.list []) 10 =
      .continueLoop ⟨0, 0, 0, 0, 1⟩ 5 ∧ (5 : ℚ) ≠ cfg7.refresh_interval := by
  constructor
  · norm_num [cycleStep, get_orderbook, st7]

  · norm_num [cfg7, cfgCex]

/-- C8 amended: whenever the orderbook fetch fails or its payload is
malformed, has an empty side, or a zero best price (`get_orderbook`
returning `None`), the remainder of the cycle is skipped with the session
totals (`total_volume`, `total_trades`, `total_loss`) unchanged, the loop
sleeps a hardcoded `5` seconds (not `refresh_interval`) and retries; the
condition never stops the loop. -/
theorem cycle_skip_on_bad_orderbook (cfg : Config) (st : BotState)
    (fetch : FetchResult) (tp : TradesPayload) (el : ℚ)
    (h : get_orderbook fetch = none) :
    cycleStep cfg st fetch tp el =
      .continueLoop { st with cycle_count := st.cycle_count + 1 } 5 := by
  rw [cycleStep, h]

/-- C8 amended witness: the concrete skipped cycle leaves the fresh state's
totals untouched and sleeps `5` seconds. -/
theorem cycle_skip_on_bad_orderbook_witness :
    cycleStep cfg7 st7 .notDict (.list []) 0 =
      .continueLoop { st7 with cycle_count := st7.cycle_count + 1 } 5 :=
  cycle_skip_on_bad_orderbook cfg7 st7 .notDict (.list []) 0 rfl

/-! ### C9 — price/size alignment -/

/-- C9 counterexample: on the reachable snapshot `obCex` the emitted first
buy price is `101`, which is not an exact multiple of the metadata tick size
`0.3` that `fetchMarkets` could report for another market: the rounding
constants are hardcoded (`0.1`, `0.001`), never taken from market metadata,
so alignment to the configured per-market tick size fails. -/
theorem emitted_price_not_metadata_tick_multiple :
    0 < metaCex.tick_size ∧ buyPriceAt obCex cfgCex 0 = 101 ∧
      ¬ isTickMultiple (buyPriceAt obCex cfgCex 0) metaCex.tick_size := by
  refine ⟨by norm_num [metaCex], ?_, ?_⟩
  · norm_num [buyPriceAt, spreadAmount, round_price, pyRound, obCex, cfgCex]
  · rintro ⟨n, hn⟩
    rw [show buyPriceAt obCex cfgCex 0 = 101 by
      norm_num [buyPriceAt, spreadAmount, round_price, pyRound, obCex, cfgCex]] at hn
    rw [show metaCex.tick_size = 3/10 from rfl] at hn
    have h3 : (1010 : ℚ) = 3 * (n : ℚ) := by linarith
    have h4 : (1010 : ℤ) = 3 * n := by exact_mod_cast h3
    omega

/-- C9 amended: every order price the cycle submits is an exact multiple of
the hardcoded tick size `0.1` and every order size an exact multiple of the
hardcoded step size `0.001`; these constants live inside
`round_price`/`round_size` (commented "for BTC_USDT_Perp") and are not
loaded from market metadata into the configuration. -/
theorem attemptedOrders_hardcoded_alignment (ob : Orderbook) (cfg : Config)
    (o : Order) (ho : o ∈ attemptedOrders ob cfg) :
    isTickMultiple o.price (1/10) ∧ isTickMultiple o.size (1/1000) := by
  rw [attemptedOrders] at ho
  rcases List.mem_append.mp ho with hb | hs
  · rcases List.mem_map.mp hb with ⟨i, -, rfl⟩
    exact ⟨⟨pyRound (((ob.mid_price - spreadAmount ob cfg -
        (i : ℚ) * (1/100) * ob.mid_price)) / (1/10)), rfl⟩,
      ⟨pyRound ((cfg.investment_usdc * cfg.leverage * cfg.order_size_percent /
        ob.mid_price) / (1/1000)), rfl⟩⟩
  · rcases List.mem_map.mp hs with ⟨i, -, rfl⟩
    exact ⟨⟨pyRound (((ob.mid_price + spreadAmount ob cfg +
        (i : ℚ) * (1/100) * ob.mid_price)) / (1/10)), rfl⟩,
      ⟨pyRound ((cfg.investment_usdc * cfg.leverage * cfg.order_size_percent /
        ob.mid_price) / (1/1000)), rfl⟩⟩

/-- C9 amended witness: the concrete first buy order on `obCex` is aligned
to the hardcoded `0.1` tick and `0.001` step. -/
theorem attemptedOrders_hardcoded_alignment_witness :
    isTickMultiple (buyPriceAt obCex cfgCex 0) (1/10) ∧
      isTickMultiple (orderSizeOf obCex cfgCex) (1/1000) :=
  attemptedOrders_hardcoded_alignment obCex cfgCex
    ⟨Side.buy, buyPriceAt obCex cfgCex 0, orderSizeOf obCex cfgCex⟩
    (by
      rw [attemptedOrders]
      refine List.mem_append.mpr (Or.inl ?_)
      exact List.mem_map.mpr ⟨0, by norm_num [ordersPerLoop, cfgCex], rfl⟩)

/-! ### C10 — one size per cycle -/

/-- C10: the order size is computed once per cycle from that cycle's mid
price, before any placement, and every buy and sell order submitted during
the cycle carries that identical size, at every rank on both sides. -/
theorem attemptedOrders_single_size (ob : Orderbook) (cfg : Config)
    (a b : Order) (ha : a ∈ attemptedOrders ob cfg)
    (hb : b ∈ attemptedOrders ob cfg) :
    a.size = orderSizeOf ob cfg ∧ a.size = b.size := by
  have size_of : ∀ o ∈ attemptedOrders ob cfg, o.size = orderSizeOf ob cfg := by
    intro o ho
    rw [attemptedOrders] at ho
    rcases List.mem_append.mp ho with h | h <;>
      · rcases List.mem_map.mp h with ⟨i, -, rfl⟩
        rfl
  exact ⟨size_of a ha, (size_of a ha).trans (size_of b hb).symm⟩

/-- C10 witness: on the concrete snapshot `obCex`, the first buy order and
the first sell order carry the same, once-computed size. -/
theorem attemptedOrders_single_size_witness :
    (⟨Side.buy, buyPriceAt obCex cfgCex 0, orderSizeOf obCex cfgCex⟩ : Order).size =
        orderSizeOf obCex cfgCex ∧
      (⟨Side.buy, buyPriceAt obCex cfgCex 0, orderSizeOf obCex cfgCex⟩ : Order).size =
        (⟨Side.sell, sellPriceAt obCex cfgCex 0, orderSizeOf obCex cfgCex⟩ : Order).size :=
  attemptedOrders_single_size obCex cfgCex _ _
    (by
      rw [attemptedOrders]
      refine List.mem_append.mpr (Or.inl ?_)
      exact List.mem_map.mpr ⟨0, by norm_num [ordersPerLoop, cfgCex], rfl⟩)
    (by
      rw [attemptedOrders]
      refine List.mem_append.mpr (Or.inr ?_)
      exact List.mem_map.mpr ⟨0, by norm_num [ordersPerLoop, cfgCex], rfl⟩)

end GrvtBot
